import Mathlib

/-!
Verification of the session/generation engine and its thin wrappers
(shakespeare-diy). Each component is embedded shallowly: external
collaborators (isomorphic-git, the Electron IPC filesystem, the model
transport, the build pipeline, persistence) are oracles passed in as
function-valued parameters, and thrown JavaScript exceptions are the
`Except.error` branch carrying the error message.
-/

namespace Shakespeare

/-- Runs a computation and routes a thrown exception into a handler:
the embedding of a JavaScript try/catch block. -/
def tryE {α : Type} (body : Except String α) (handler : String → Except String α) :
    Except String α :=
  match body with
  | .ok a => .ok a
  | .error e => handler e

namespace Checkout

/-- Result of a shell command.  Mirrors the values built by
createSuccessResult / createErrorResult in ShellCommand. -/
inductive ShellCommandResult where
  | success (output : String)
  | failure (message : String)
deriving Repr, DecidableEq

def createSuccessResult (out : String) : ShellCommandResult := .success out

def createErrorResult (msg : String) : ShellCommandResult := .failure msg

/-- One row of the status matrix returned by git.statusMatrix:
filepath, HEAD status, workdir status, stage status. -/
structure StatusRow where
  filepath : String
  headStatus : Nat
  workdirStatus : Nat
  stageStatus : Nat
deriving Repr, DecidableEq

/-- Oracle for the external collaborators used by GitCheckoutCommand:
the filesystem stat of cwd/.git and the isomorphic-git calls.  Each
returns `Except.error msg` when the underlying call throws an
exception with message `msg`. -/
structure GitEnv where
  statGitDir : Except String Unit
  listBranches : Except String (List String)
  currentBranch : Except String (Option String)
  statusMatrix : Except String (List StatusRow)
  checkoutRef : String → List String → Except String Unit
  resolveHead : Except String String
  createBranchAt : String → String → Except String Unit

/-- Action decided by GitCheckoutCommand.parseArgs. -/
inductive CheckoutAction where
  | switch
  | create
  | restore
deriving Repr, DecidableEq

structure ParsedArgs where
  action : CheckoutAction
  target : Option String
deriving Repr, DecidableEq

/-- The argument-scanning loop of GitCheckoutCommand.parseArgs. -/
def parseArgsGo (args : List String) (acc : ParsedArgs) : ParsedArgs :=
  match args with
  | [] => acc
  | a :: rest =>
    if a == "-b" then
      match rest with
      | t :: rest' => parseArgsGo rest' { action := .create, target := some t }
      | [] => parseArgsGo [] { acc with action := .create }
    else if a == "--" then
      match rest with
      | t :: _ => { action := .restore, target := some t }
      | [] => acc
    else if !(a.startsWith "-") then
      match acc.target with
      | none => parseArgsGo rest { acc with target := some a }
      | some _ => parseArgsGo rest acc
    else
      parseArgsGo rest acc

def parseArgs (args : List String) : ParsedArgs :=
  parseArgsGo args { action := .switch, target := none }

/-- JavaScript string coercion of a possibly-undefined branch name, as it
appears interpolated into error messages. -/
def optStr (t : Option String) : String := t.getD "undefined"

/-- Membership test `branches.includes(branchName)` where the branch name
may be undefined (in which case JavaScript includes returns false). -/
def branchIncludes (branches : List String) (t : Option String) : Bool :=
  match t with
  | some b => branches.contains b
  | none => false

/-- GitCheckoutCommand.switchBranch. -/
def switchBranch (env : GitEnv) (bn? : Option String) : Except String ShellCommandResult :=
  tryE
    (do
      let branches ← env.listBranches
      if !(branchIncludes branches bn?) then
        return createErrorResult
          ("error: pathspec \x27" ++ optStr bn? ++ "\x27 did not match any file(s) known to git")
      else
        let cur : Option String :=
          match env.currentBranch with
          | .ok c => c
          | .error _ => none
        if cur == bn? then
          return createErrorResult ("Already on \x27" ++ optStr bn? ++ "\x27")
        else
          let rows ← env.statusMatrix
          let hasChanges := rows.any (fun r =>
            r.headStatus != r.workdirStatus || r.headStatus != r.stageStatus)
          if hasChanges then
            return createErrorResult
              ("error: Your local changes to the following files would be overwritten by checkout:\nPlease commit your changes or stash them before you switch branches.")
          else
            let _ ← env.checkoutRef (optStr bn?) []
            return createSuccessResult ("Switched to branch \x27" ++ optStr bn? ++ "\x27\n"))
    (fun e => .ok (createErrorResult ("Failed to switch branch: " ++ e)))

/-- GitCheckoutCommand.createAndSwitchBranch. -/
def createAndSwitchBranch (env : GitEnv) (bn? : Option String) : Except String ShellCommandResult :=
  tryE
    (do
      let branches ← env.listBranches
      if branchIncludes branches bn? then
        return createErrorResult
          ("fatal: A branch named \x27" ++ optStr bn? ++ "\x27 already exists.")
      else
        match env.resolveHead with
        | .error _ =>
          return createErrorResult ("fatal: Not a valid object name: \x27HEAD\x27.")
        | .ok currentRef =>
          let _ ← env.createBranchAt (optStr bn?) currentRef
          let _ ← env.checkoutRef (optStr bn?) []
          return createSuccessResult ("Switched to a new branch \x27" ++ optStr bn? ++ "\x27\n"))
    (fun e => .ok (createErrorResult ("Failed to create and switch branch: " ++ e)))

/-- True when a JavaScript error message contains the substring
"does not exist". -/
def mentionsDoesNotExist (e : String) : Bool :=
  (e.splitOn "does not exist").length > 1

/-- GitCheckoutCommand.restoreFiles. -/
def restoreFiles (env : GitEnv) (fp? : Option String) : Except String ShellCommandResult :=
  tryE
    (tryE
      (do
        let _ ← env.checkoutRef "HEAD" [optStr fp?]
        return createSuccessResult "")
      (fun e =>
        if mentionsDoesNotExist e then
          .ok (createErrorResult
            ("error: pathspec \x27" ++ optStr fp? ++ "\x27 did not match any file(s) known to git"))
        else
          .error e))
    (fun e => .ok (createErrorResult ("Failed to restore file: " ++ e)))

/-- The body of GitCheckoutCommand.execute inside its try block. -/
def executeBody (env : GitEnv) (args : List String) : Except String ShellCommandResult :=
  match env.statGitDir with
  | .error _ =>
    .ok (createErrorResult "fatal: not a git repository (or any of the parent directories): .git")
  | .ok _ =>
    let p := parseArgs args
    match p.action with
    | .switch => switchBranch env p.target
    | .create => createAndSwitchBranch env p.target
    | .restore => restoreFiles env p.target

/-- GitCheckoutCommand.execute: dispatches on the parsed action under a
top-level try/catch that converts any escaped exception into an
error-valued result. -/
def execute (env : GitEnv) (args : List String) : Except String ShellCommandResult :=
  tryE (executeBody env args)
    (fun e => .ok (createErrorResult ("git checkout: " ++ e)))

end Checkout

namespace ElectronFS

/-- A JavaScript filesystem error as seen by the renderer: a message and
an optional errno-style code property. -/
structure FSError where
  message : String
  code : Option String
deriving Repr, DecidableEq

/-- Attempts the regex fragment after a colon: skip whitespace, expect
an uppercase E followed by at least one further uppercase letter, then
a colon; returns the matched code. -/
def matchCodeAfterColon (cs : List Char) : Option String :=
  let cs₁ := cs.dropWhile Char.isWhitespace
  match cs₁ with
  | 'E' :: rest =>
    let run := rest.takeWhile Char.isUpper
    if run.isEmpty then none
    else
      match rest.drop run.length with
      | ':' :: _ => some (String.mk ('E' :: run))
      | _ => none
  | _ => none

/-- Leftmost match of the unwrapElectronError message regex, which looks
for a colon, optional whitespace, and an E-prefixed uppercase code
followed by a colon. -/
def findCodeInMessage : List Char → Option String
  | [] => none
  | c :: rest =>
    if c == ':' then
      match matchCodeAfterColon rest with
      | some code => some code
      | none => findCodeInMessage rest
    else
      findCodeInMessage rest

/-- ElectronFSAdapter.unwrapElectronError: preserve an existing code, or
recover one from the wrapped message. -/
def unwrapElectronError (e : FSError) : FSError :=
  match e.code with
  | some c => { message := e.message, code := some c }
  | none =>
    match findCodeInMessage e.message.toList with
    | some c => { message := e.message, code := some c }
    | none => e

/-- Oracle for the Electron main-process filesystem reached over IPC.
File contents are modelled as strings; an `Except.error` is a rejected
IPC call carrying the (possibly wrapped) error. -/
structure FSOracle where
  read : String → Except FSError String
  write : String → String → Except FSError Unit

/-- The adapter's mutable caches: the stat-cache keys (entries are
irrelevant to the claims; only key deletion is modelled) and the
insertion-ordered ENOENT negative cache. -/
structure AdapterState where
  statCacheKeys : List String
  enoentCache : List String
deriving Repr, DecidableEq

/-- JavaScript Set.add: appends at the end unless already present. -/
def setAdd (c : List String) (p : String) : List String :=
  if c.contains p then c else c ++ [p]

def enoentCacheMaxSize : Nat := 5000

/-- The size-limiting step after an ENOENT insertion: when the cache
exceeds its maximum size, the first 1000 entries are dropped. -/
def evictEnoent (c : List String) : List String :=
  if c.length > enoentCacheMaxSize then c.drop 1000 else c

def einvalError : FSError :=
  { message := "EINVAL: invalid path \x27\x27", code := some "EINVAL" }

def enoentError (p : String) : FSError :=
  { message := "ENOENT: no such file or directory, open \x27" ++ p ++ "\x27",
    code := some "ENOENT" }

/-- JavaScript String.prototype.trim: strip leading and trailing
whitespace.  Implemented over the character list so that it reduces
by computation. -/
def jsTrim (p : String) : String :=
  String.mk (((p.toList.dropWhile Char.isWhitespace).reverse.dropWhile
    Char.isWhitespace).reverse)

/-- The try-block of ElectronFSAdapter.readFile: empty-path check (an
empty string and an all-whitespace string both fail it), then the
negative-cache check, then the IPC read. -/
def readFileBody (fs : FSOracle) (st : AdapterState) (p : String) : Except FSError String :=
  if jsTrim p == "" then .error einvalError
  else if st.enoentCache.contains p then .error (enoentError p)
  else fs.read p

structure ReadOutcome where
  result : Except FSError String
  ipcCalled : Bool
  state : AdapterState

/-- ElectronFSAdapter.readFile: runs the body and, in the catch block,
unwraps the error and records ENOENT failures in the negative cache.
`ipcCalled` is true exactly when the IPC read was issued. -/
def readFile (fs : FSOracle) (st : AdapterState) (p : String) : ReadOutcome :=
  let ipc := !(jsTrim p == "") && !(st.enoentCache.contains p)
  match readFileBody fs st p with
  | .ok d => { result := .ok d, ipcCalled := ipc, state := st }
  | .error e =>
    let u := unwrapElectronError e
    if u.code == some "ENOENT" then
      { result := .error u, ipcCalled := ipc,
        state := { st with enoentCache := evictEnoent (setAdd st.enoentCache p) } }
    else
      { result := .error u, ipcCalled := ipc, state := st }

/-- Characters of `path.substring(0, path.lastIndexOf(s))` for the last
slash: `some` of the prefix before the last slash, or `none` when the
string has no slash. -/
def parentDirAux : List Char → Option (List Char)
  | [] => none
  | c :: rest =>
    match parentDirAux rest with
    | some t => some (c :: t)
    | none => if c == '/' then some [] else none

/-- The `parentDir` computation in writeFile: everything before the last
slash, or the empty string when there is none. -/
def parentDir (p : String) : String :=
  match parentDirAux p.toList with
  | some cs => String.mk cs
  | none => ""

def deleteStatKeys (keys : List String) (p : String) : List String :=
  (keys.filter (fun k => k != p)).filter (fun k => k != ("lstat:" ++ p))

/-- ElectronFSAdapter.writeFile: on IPC success, invalidates the stat
cache for the path and its parent directory and removes the path from
the ENOENT cache; on failure, rethrows the unwrapped error. -/
def writeFile (fs : FSOracle) (st : AdapterState) (p : String) (data : String) :
    Except FSError Unit × AdapterState :=
  match fs.write p data with
  | .ok _ =>
    let st₁ : AdapterState :=
      { statCacheKeys := deleteStatKeys st.statCacheKeys p,
        enoentCache := st.enoentCache.filter (fun q => q != p) }
    let parent := parentDir p
    let st₂ :=
      if parent != "" then
        { st₁ with statCacheKeys := deleteStatKeys st₁.statCacheKeys parent }
      else st₁
    (.ok (), st₂)
  | .error e => (.error (unwrapElectronError e), st)

end ElectronFS

namespace Tools

/-- ToolResult as consumed by the session engine: a string content field. -/
structure ToolResult where
  content : String
deriving Repr, DecidableEq

/-- What a tool's execute actually hands back when it does not throw:
either a ToolResult record or a bare string. -/
inductive ToolReturn where
  | result (r : ToolResult)
  | plain (s : String)
deriving Repr, DecidableEq

def ToolReturn.isToolResult : ToolReturn → Bool
  | .result _ => true
  | .plain _ => false

/-- JavaScript String(error) rendering of a thrown Error carrying the
given message. -/
def jsStringOfError (m : String) : String := "Error: " ++ m

/-- Outcome of the external buildProject collaborator: output path and
the list of generated file names (the keys of result.files). -/
structure BuildResult where
  outputPath : String
  files : List String
deriving Repr, DecidableEq

/-- BuildProjectTool.execute, as a function of the buildProject outcome:
formats a success report into a ToolResult, or rethrows the build
failure wrapped in a descriptive Error. -/
def buildProjectExecute (build : Except String BuildResult) : Except String ToolResult :=
  match build with
  | .ok r =>
    .ok { content :=
      "✅ Successfully built project!\n\n📁 Output: " ++ r.outputPath ++
      "\n📦 Files generated: " ++ toString r.files.length ++ "\n\n" ++
      String.intercalate "\n" (r.files.map (fun f => "  📄 " ++ f)) ++
      "\n\n🚀 Your project is ready for deployment!" }
  | .error e => .error ("❌ Build failed: " ++ e)

/-- TypecheckTool.execute, as a function of the tsconfig.json read
outcome: the missing-tsconfig throw happens inside the outer try, so
the outer catch rewraps it; the success value is a bare string. -/
def typecheckExecute (tsconfigRead : Except String String) (cwd : String) :
    Except String String :=
  tryE
    (match tsconfigRead with
     | .ok _ =>
       .ok ("✅ No type errors found.\n\n🔍 TypeScript compilation completed successfully.\n📁 Project: " ++ cwd)
     | .error _ =>
       .error (jsStringOfError
         ("❌ Could not find tsconfig.json at " ++ cwd ++
          ". Make sure you\x27re in a valid TypeScript project.")))
    (fun e => .error ("❌ Type check failed: " ++ e))

/-- BuildProjectTool.execute viewed at the Tool-capability boundary: its
non-throwing value is a ToolResult record. -/
def buildProjectReturn (build : Except String BuildResult) : Except String ToolReturn :=
  (buildProjectExecute build).map ToolReturn.result

/-- TypecheckTool.execute viewed at the Tool-capability boundary: its
non-throwing value is a bare string, not a ToolResult record. -/
def typecheckReturn (tsconfigRead : Except String String) (cwd : String) :
    Except String ToolReturn :=
  (typecheckExecute tsconfigRead cwd).map ToolReturn.plain

/-- True when the call did not throw and yielded a ToolResult record. -/
def okIsToolResult (x : Except String ToolReturn) : Bool :=
  match x with
  | .ok v => v.isToolResult
  | .error _ => true

/-- True when the call did not throw and yielded a bare string. -/
def okIsPlain (x : Except String ToolReturn) : Bool :=
  match x with
  | .ok v => !v.isToolResult
  | .error _ => true

/-- True when the call did not throw and its value is not a ToolResult
record: the shape that contradicts the ToolResult contract. -/
def okButNotToolResult (x : Except String ToolReturn) : Bool :=
  match x with
  | .ok (.plain _) => true
  | _ => false

end Tools

namespace SessionModel

/-- Modelled from the spec: SessionManager.ts itself is not among the
provided sources (only its test file is), so the session/generation
engine of spec sections 3-4 is reconstructed here from the spec's
words.  Message roles per spec section 3. -/
inductive Role where
  | system
  | user
  | assistant
  | tool
deriving Repr, DecidableEq

/-- Modelled from the spec: a model-requested tool invocation with a
correlation id, a tool name and an opaque argument payload. -/
structure ToolCall where
  id : String
  name : String
  arguments : String
deriving Repr, DecidableEq

/-- Modelled from the spec: a conversation message.  An absent
tool_calls field is represented by the empty list; reasoning_content
is created only on the first non-empty reasoning delta. -/
structure Message where
  role : Role
  content : String
  reasoning_content : Option String := none
  tool_calls : List ToolCall := []
  tool_call_id : Option String := none
deriving Repr, DecidableEq

/-- Modelled from the spec: generation states of a session.  Completed
and Failed are transient and collapse back to Idle, so only the five
resting states of spec section 3 are carried on the session. -/
inductive GenerationState where
  | Idle
  | Requesting
  | Streaming
  | ExecutingTools
  | Cancelling
deriving Repr, DecidableEq

/-- Modelled from the spec: the consumed Tool capability; execute maps
the argument payload to a ToolResult content string or throws. -/
structure SpecTool where
  description : String
  execute : String → Except String String

/-- Modelled from the spec: per-project conversational state plus
generation status. -/
structure Session where
  projectId : String
  messages : List Message
  streamingMessage : Option Message := none
  generationState : GenerationState := .Idle
  tools : List (String × SpecTool)
  customTools : List (String × SpecTool)

/-- Modelled from the spec: provider credentials resolved by id. -/
structure Provider where
  id : String
  baseURL : String
  apiKey : String
deriving Repr, DecidableEq

/-- Splits a character list at the first slash, when there is one. -/
def splitFirstSlash : List Char → Option (List Char × List Char)
  | [] => none
  | c :: rest =>
    if c == '/' then some ([], rest)
    else
      match splitFirstSlash rest with
      | some (a, b) => some (c :: a, b)
      | none => none

/-- Modelled from the spec: split a provider/model identifier on the
first slash; model ids may themselves contain slashes. -/
def splitProviderModel (s : String) : String × String :=
  match splitFirstSlash s.toList with
  | some (a, b) => (String.mk a, String.mk b)
  | none => (s, "")

/-- Modelled from the spec: the Provider Registry lookup; a missing
provider fails before any session mutation with the exact quoted
message. -/
def resolveProvider (providers : List Provider) (pm : String) :
    Except String (Provider × String) :=
  let pid := (splitProviderModel pm).1
  match providers.find? (fun p => p.id == pid) with
  | some p => .ok (p, (splitProviderModel pm).2)
  | none => .error ("Provider \"" ++ pid ++ "\" not found")

/-- Modelled from the spec: the manager owns the provider configuration
and the in-memory map of project id to Session, kept as an
insertion-ordered association list. -/
structure ManagerState where
  providers : List Provider
  sessions : List (String × Session)

def lookupSession : List (String × Session) → String → Option Session
  | [], _ => none
  | e :: rest, pid => if e.1 == pid then some e.2 else lookupSession rest pid

/-- Modelled from the spec: getSession is a pure lookup. -/
def getSession (st : ManagerState) (pid : String) : Option Session :=
  lookupSession st.sessions pid

/-- Modelled from the spec: the persistence capability; none stands for
both a missing history and a failed storage read. -/
def Storage : Type := String → Option (List Message)

/-- Modelled from the spec: loadSession returns the cached Session when
present, ignoring the tools arguments, and otherwise constructs a
fresh Idle session restored from storage (empty on none) and caches
it. -/
def loadSession (storage : Storage) (st : ManagerState) (pid : String)
    (tools customTools : List (String × SpecTool)) : ManagerState × Session :=
  match lookupSession st.sessions pid with
  | some s => (st, s)
  | none =>
    let s : Session :=
      { projectId := pid, messages := (storage pid).getD [],
        streamingMessage := none, generationState := .Idle,
        tools := tools, customTools := customTools }
    ({ st with sessions := st.sessions ++ [(pid, s)] }, s)

def updateSession (st : ManagerState) (pid : String) (s : Session) : ManagerState :=
  { st with sessions := st.sessions.map (fun e => if e.1 == pid then (pid, s) else e) }

/-- Modelled from the spec: addMessage implicitly loads a session with
empty tool sets when absent and appends the message in memory;
persistence is fire-and-forget and not part of the in-memory state. -/
def addMessage (storage : Storage) (st : ManagerState) (pid : String) (m : Message) :
    ManagerState :=
  let ls := loadSession storage st pid [] []
  updateSession ls.1 pid { ls.2 with messages := ls.2.messages ++ [m] }

/-- Modelled from the spec: one incremental fragment of a tool call as
emitted by the provider; a call may arrive as a name first with
argument fragments following under the same id. -/
structure ToolCallDelta where
  id : String
  name : Option String := none
  argumentsDelta : String := ""
deriving Repr, DecidableEq

/-- Modelled from the spec: one provider-emitted streaming delta. -/
structure StreamDelta where
  contentDelta : Option String := none
  reasoningDelta : Option String := none
  toolCallDeltas : List ToolCallDelta := []
deriving Repr, DecidableEq

/-- Modelled from the spec: merge one tool-call fragment into the draft
by correlation id, concatenating argument fragments in arrival
order. -/
def mergeToolCallDelta (tcs : List ToolCall) (d : ToolCallDelta) : List ToolCall :=
  if tcs.any (fun tc => tc.id == d.id) then
    tcs.map (fun tc =>
      if tc.id == d.id then
        { tc with
          name := match d.name with | some n => n | none => tc.name,
          arguments := tc.arguments ++ d.argumentsDelta }
      else tc)
  else
    tcs ++ [{ id := d.id, name := d.name.getD "", arguments := d.argumentsDelta }]

/-- Modelled from the spec: the Streaming Accumulator's single-delta
step; content and reasoning grow by concatenation, the reasoning
field being created on the first non-empty delta. -/
def applyDelta (m : Message) (d : StreamDelta) : Message :=
  { m with
    content := m.content ++ d.contentDelta.getD "",
    reasoning_content :=
      match m.reasoning_content, d.reasoningDelta with
      | some r, some dr => some (r ++ dr)
      | some r, none => some r
      | none, some dr => if dr == "" then none else some dr
      | none, none => none,
    tool_calls := d.toolCallDeltas.foldl mergeToolCallDelta m.tool_calls }

def emptyDraft : Message :=
  { role := .assistant, content := "" }

/-- Modelled from the spec: the accumulator's draft after a sequence of
deltas; the full-snapshot streamingUpdate after delta i carries
`accumulateDeltas (ds.take (i+1))`. -/
def accumulateDeltas (ds : List StreamDelta) : Message :=
  ds.foldl applyDelta emptyDraft

/-- Modelled from the spec: the provider transport, consulted once per
agent-loop iteration with the full message list; it either streams a
delta sequence to completion or throws a transport error. -/
inductive TransportResult where
  | stream (deltas : List StreamDelta)
  | failure (message : String)

def Transport : Type := Nat → List Message → TransportResult

/-- Modelled from the spec: name-based tool dispatch over tools then
customTools. -/
def lookupTool (s : Session) (name : String) : Option SpecTool :=
  match (s.tools.find? (fun e => e.1 == name)).map (fun e => e.2) with
  | some t => some t
  | none => (s.customTools.find? (fun e => e.1 == name)).map (fun e => e.2)

/-- Modelled from the spec: execute one ToolCall; a missing tool yields
a conversational not-found result and a thrown tool error is caught
and downgraded to error content, each wrapped as a tool-role message
carrying the originating tool_call_id. -/
def runToolCall (s : Session) (tc : ToolCall) : Message :=
  let content :=
    match lookupTool s tc.name with
    | none => "Tool not found: " ++ tc.name
    | some t =>
      match t.execute tc.arguments with
      | .ok r => r
      | .error e => "Error: " ++ e
  { role := .tool, content := content, tool_call_id := some tc.id }

/-- Modelled from the spec: one tool-role message per ToolCall, in the
same order as the originating tool_calls. -/
def toolMessages (s : Session) (tcs : List ToolCall) : List Message :=
  tcs.map (runToolCall s)

/-- Modelled from the spec: outcome of one generation run. -/
inductive GenOutcome where
  | completed (final : Message)
  | transportFailed (message : String)
  | maxIterationsExceeded
deriving Repr, DecidableEq

/-- Modelled from the spec: the hard iteration cap on the agent loop
(bounded, tens of round-trips). -/
def maxIterations : Nat := 20

/-- Session at the start of an iteration: Requesting, no draft. -/
def requestingSession (s : Session) : Session :=
  { s with generationState := .Requesting, streamingMessage := none }

/-- Per-chunk session states during streaming: after chunk i the draft
is the accumulator snapshot of the first i+1 deltas. -/
def streamingStates (s : Session) (ds : List StreamDelta) : List Session :=
  (List.range ds.length).map (fun i =>
    { s with generationState := .Streaming,
             streamingMessage := some (accumulateDeltas (ds.take (i + 1))) })

/-- Session after finalizing a draft with no tool calls: draft appended,
scratch cleared, Completed collapsing to Idle. -/
def finalSession (s : Session) (draft : Message) : Session :=
  { s with messages := s.messages ++ [draft],
           streamingMessage := none, generationState := .Idle }

/-- Session after a transport failure: Failed collapsing to Idle, no
partial assistant message committed. -/
def failedSession (s : Session) : Session :=
  { s with streamingMessage := none, generationState := .Idle }

/-- Session while executing tools: the tool-calling draft is appended
and remains the scratch draft. -/
def execSession (s : Session) (draft : Message) : Session :=
  { s with messages := s.messages ++ [draft],
           streamingMessage := some draft, generationState := .ExecutingTools }

/-- Session handed to the next iteration: all tool-role replies appended
after the draft, before the next provider request is sent. -/
def afterToolsSession (s : Session) (draft : Message) : Session :=
  { execSession s draft with
    messages := (execSession s draft).messages ++ toolMessages s draft.tool_calls }

/-- Modelled from the spec: the agent loop as a bounded state machine.
Returns the outcome, the final session, and the ordered trace of every
intermediate session state. -/
def runLoop (transport : Transport) (iter : Nat) (fuel : Nat) (s : Session) :
    GenOutcome × Session × List Session :=
  match fuel with
  | 0 => (.maxIterationsExceeded, failedSession s, [failedSession s])
  | fuel' + 1 =>
    let sReq := requestingSession s
    match transport iter sReq.messages with
    | .failure msg => (.transportFailed msg, failedSession sReq, [sReq, failedSession sReq])
    | .stream ds =>
      let draft := accumulateDeltas ds
      if draft.tool_calls.isEmpty then
        (.completed draft, finalSession sReq draft,
          sReq :: streamingStates sReq ds ++ [finalSession sReq draft])
      else
        let sTools := afterToolsSession sReq draft
        let nxt := runLoop transport (iter + 1) fuel' sTools
        (nxt.1, nxt.2.1,
          sReq :: streamingStates sReq ds ++ [execSession sReq draft, sTools] ++ nxt.2.2)

/-- Modelled from the spec: cancelGeneration transitions through
Cancelling to Idle and discards the partial draft without committing
it. -/
def cancelGeneration (st : ManagerState) (pid : String) : ManagerState :=
  match getSession st pid with
  | none => st
  | some s =>
    updateSession st pid { s with streamingMessage := none, generationState := .Idle }

/-- Modelled from the spec: startGeneration requires an existing Idle
session, resolves the provider before any session mutation, then runs
the bounded agent loop; transport failures and the iteration cap are
surfaced to the caller as rejections while the accumulated messages
stay in the session. -/
def startGeneration (transport : Transport) (st : ManagerState) (pid : String)
    (pm : String) : Except String GenOutcome × ManagerState :=
  match getSession st pid with
  | none => (.error "Session not found", st)
  | some s =>
    if s.generationState != .Idle then
      (.error "GenerationInProgress", st)
    else
      match resolveProvider st.providers pm with
      | .error e => (.error e, st)
      | .ok _ =>
        let r := runLoop transport 0 maxIterations s
        let st' := updateSession st pid r.2.1
        match r.1 with
        | .completed m => (.ok (.completed m), st')
        | .transportFailed msg => (.error msg, st')
        | .maxIterationsExceeded => (.error "MaxIterationsExceeded", st')

/-- Invariant of spec section 3: the scratch draft is present exactly in
the Streaming and ExecutingTools states. -/
def sessionInv (s : Session) : Prop :=
  s.streamingMessage.isSome = true ↔
    (s.generationState = .Streaming ∨ s.generationState = .ExecutingTools)

/-- Invariant lifted to the manager: every cached session satisfies the
session invariant. -/
def managerInv (st : ManagerState) : Prop :=
  ∀ e ∈ st.sessions, sessionInv e.2

/-- Count of assistant-role messages, used to bound the number of
request round-trips recorded in a conversation. -/
def assistantCount (l : List Message) : Nat :=
  (l.filter (fun m => m.role == .assistant)).length

instance (s : Session) : Decidable (sessionInv s) := by
  unfold sessionInv; exact inferInstance

instance (st : ManagerState) : Decidable (managerInv st) := by
  unfold managerInv; exact inferInstance

end SessionModel

namespace Fixtures

open SessionModel

/-- Concrete session with no history and no tools, used to instantiate
the generation theorems. -/
def emptySession (pid : String) : Session :=
  { projectId := pid, messages := [], streamingMessage := none,
    generationState := .Idle, tools := [], customTools := [] }

/-- Concrete stream answering with two tool calls in one delta. -/
def twoToolDeltas : List StreamDelta :=
  [{ toolCallDeltas :=
      [{ id := "1", name := some "f", argumentsDelta := "x" },
       { id := "2", name := some "g", argumentsDelta := "y" }] }]

/-- Concrete transport that always requests the two tool calls, so the
agent loop never reaches a final answer. -/
def toolTransport : Transport := fun _ _ => .stream twoToolDeltas

/-- Concrete provider configuration matching the test file. -/
def testProviders : List Provider :=
  [{ id := "test-provider", baseURL := "https://api.test.com", apiKey := "test-key" }]

end Fixtures

end Shakespeare

open Shakespeare

section CheckoutTheorems

/-- Running a try/catch whose handler always returns a result value
yields a result value. -/
theorem tryE_ok_of_handler_ok {α : Type} (body : Except String α) (h : String → α) :
    ∃ r, tryE body (fun e => .ok (h e)) = Except.ok r := by
  cases body with
  | ok a => exact ⟨a, rfl⟩
  | error e => exact ⟨h e, rfl⟩

/-- C9: for every argument list and every behavior of the filesystem and
git collaborators, GitCheckoutCommand.execute resolves with a
ShellCommandResult; every failure path, including any exception thrown
by a collaborator, is converted into an error-valued result rather
than propagated as a rejection. -/
theorem checkout_execute_never_rejects (env : Checkout.GitEnv) (args : List String) :
    ∃ r, Checkout.execute env args = Except.ok r :=
  tryE_ok_of_handler_ok (Checkout.executeBody env args)
    (fun e => Checkout.createErrorResult ("git checkout: " ++ e))

end CheckoutTheorems

section ToolsTheorems

/-- C8 counterexample: with tsconfig.json readable, TypecheckTool's
execute succeeds yet hands back a bare string, not a value with a
content field. -/
theorem typecheck_returns_bare_string :
    Tools.okButNotToolResult (Tools.typecheckReturn (Except.ok "") "/project") = true := by
  decide

/-- C8 amended: BuildProjectTool.execute, when it does not throw,
returns a ToolResult with a string content field; TypecheckTool's
execute, when it does not throw, returns its report as a bare string
rather than a ToolResult. -/
theorem tool_execute_return_shapes (build : Except String Tools.BuildResult)
    (tsconfigRead : Except String String) (cwd : String) :
    Tools.okIsToolResult (Tools.buildProjectReturn build) = true ∧
    Tools.okIsPlain (Tools.typecheckReturn tsconfigRead cwd) = true := by
  constructor
  · cases build <;> rfl
  · cases tsconfigRead <;> rfl

end ToolsTheorems

section ElectronFSTheorems

/-- A path freshly appended to the negative cache survives the
size-limiting eviction, because eviction only drops entries from the
front. -/
theorem contains_evict_setAdd (c : List String) (p : String)
    (hc : c.contains p = false) :
    (ElectronFS.evictEnoent (ElectronFS.setAdd c p)).contains p = true := by
  have hadd : ElectronFS.setAdd c p = c ++ [p] := by
    unfold ElectronFS.setAdd
    rw [hc]
    simp
  rw [hadd]
  unfold ElectronFS.evictEnoent
  by_cases hlen : (c ++ [p]).length > ElectronFS.enoentCacheMaxSize
  · rw [if_pos hlen]
    have h1000 : 1000 ≤ c.length := by
      simp [ElectronFS.enoentCacheMaxSize] at hlen
      omega
    rw [List.drop_append_of_le_length h1000]
    simp
  · rw [if_neg hlen]
    simp

/-- Whether readFile issued the IPC call depends only on the empty-path
check and the negative cache. -/
theorem readFile_ipcCalled (fs : ElectronFS.FSOracle) (st : ElectronFS.AdapterState)
    (p : String) :
    (ElectronFS.readFile fs st p).ipcCalled =
      (!(ElectronFS.jsTrim p == "") && !(st.enoentCache.contains p)) := by
  unfold ElectronFS.readFile
  cases h : ElectronFS.readFileBody fs st p with
  | ok d => simp
  | error e =>
    dsimp only
    split <;> rfl

/-- When the body throws, readFile rethrows the unwrapped error. -/
theorem readFile_result_of_error (fs : ElectronFS.FSOracle)
    (st : ElectronFS.AdapterState) (p : String) (e0 : ElectronFS.FSError)
    (h : ElectronFS.readFileBody fs st p = .error e0) :
    (ElectronFS.readFile fs st p).result =
      .error (ElectronFS.unwrapElectronError e0) := by
  unfold ElectronFS.readFile
  rw [h]
  dsimp only
  split <;> rfl

/-- When the body succeeds, readFile returns the data unchanged. -/
theorem readFile_result_of_ok (fs : ElectronFS.FSOracle)
    (st : ElectronFS.AdapterState) (p : String) (v : String)
    (h : ElectronFS.readFileBody fs st p = .ok v) :
    (ElectronFS.readFile fs st p).result = .ok v := by
  unfold ElectronFS.readFile
  rw [h]

/-- When the body throws an error that unwraps to an ENOENT code, the
catch block records the path in the negative cache. -/
theorem readFile_state_of_enoent (fs : ElectronFS.FSOracle)
    (st : ElectronFS.AdapterState) (p : String) (e0 : ElectronFS.FSError)
    (h : ElectronFS.readFileBody fs st p = .error e0)
    (hcode : (ElectronFS.unwrapElectronError e0).code = some "ENOENT") :
    (ElectronFS.readFile fs st p).state.enoentCache =
      ElectronFS.evictEnoent (ElectronFS.setAdd st.enoentCache p) := by
  unfold ElectronFS.readFile
  rw [h]
  dsimp only
  rw [if_pos (by simp [hcode])]

/-- C10: the ENOENT negative cache of ElectronFSAdapter.  A readFile
that fails with ENOENT through IPC records the path in the cache; a
readFile of a cached path throws ENOENT without issuing an IPC call; a
readFile of an uncached path issues the IPC call; and a successful
writeFile removes the path from the cache, so the readFile issued
after it goes to IPC instead of being answered from the cache. -/
theorem electronfs_negative_cache (fs : ElectronFS.FSOracle)
    (st : ElectronFS.AdapterState) (p d : String)
    (hp : ¬ (ElectronFS.jsTrim p = "")) :
    ((ElectronFS.readFile fs st p).ipcCalled = true →
      ∀ e, (ElectronFS.readFile fs st p).result = .error e →
        e.code = some "ENOENT" →
        (ElectronFS.readFile fs st p).state.enoentCache.contains p = true) ∧
    (st.enoentCache.contains p = true →
      (ElectronFS.readFile fs st p).ipcCalled = false ∧
      (ElectronFS.readFile fs st p).result = .error (ElectronFS.enoentError p)) ∧
    (st.enoentCache.contains p = false →
      (ElectronFS.readFile fs st p).ipcCalled = true) ∧
    (fs.write p d = .ok () →
      (ElectronFS.writeFile fs st p d).2.enoentCache.contains p = false ∧
      (ElectronFS.readFile fs (ElectronFS.writeFile fs st p d).2 p).ipcCalled = true) := by
  have hpB : (ElectronFS.jsTrim p == "") = false := by simpa using hp
  refine ⟨?_, ?_, ?_, ?_⟩
  · intro hi e he hcode
    have hcache : st.enoentCache.contains p = false := by
      rw [readFile_ipcCalled, hpB] at hi
      simpa using hi
    cases h : ElectronFS.readFileBody fs st p with
    | ok v =>
      rw [readFile_result_of_ok fs st p v h] at he
      exact absurd he (by simp)
    | error e0 =>
      rw [readFile_result_of_error fs st p e0 h] at he
      have he' : ElectronFS.unwrapElectronError e0 = e := Except.error.inj he
      rw [readFile_state_of_enoent fs st p e0 h (he' ▸ hcode)]
      exact contains_evict_setAdd st.enoentCache p hcache
  · intro hc
    have hbody : ElectronFS.readFileBody fs st p = .error (ElectronFS.enoentError p) := by
      unfold ElectronFS.readFileBody
      rw [if_neg (by simp [hpB]), if_pos hc]
    constructor
    · rw [readFile_ipcCalled, hc]
      simp
    · rw [readFile_result_of_error fs st p _ hbody]
      rfl
  · intro hc
    rw [readFile_ipcCalled, hpB, hc]
    rfl
  · intro hw
    have hstate : (ElectronFS.writeFile fs st p d).2.enoentCache =
        st.enoentCache.filter (fun q => q != p) := by
      unfold ElectronFS.writeFile
      rw [hw]
      dsimp only
      split <;> rfl
    have hnc : ((ElectronFS.writeFile fs st p d).2.enoentCache.contains p) = false := by
      rw [hstate]
      simp
    exact ⟨hnc, by rw [readFile_ipcCalled, hpB, hnc]; rfl⟩

/-- C10 witness: the cache contract instantiated at a concrete oracle
whose read always fails with ENOENT and whose write succeeds. -/
theorem electronfs_negative_cache_witness :
    ((ElectronFS.readFile
        { read := fun _ => Except.error { message := "boom", code := some "ENOENT" },
          write := fun _ _ => Except.ok () }
        { statCacheKeys := [], enoentCache := ["/other"] } "/a").ipcCalled = true →
      ∀ e, (ElectronFS.readFile
        { read := fun _ => Except.error { message := "boom", code := some "ENOENT" },
          write := fun _ _ => Except.ok () }
        { statCacheKeys := [], enoentCache := ["/other"] } "/a").result = .error e →
        e.code = some "ENOENT" →
        (ElectronFS.readFile
          { read := fun _ => Except.error { message := "boom", code := some "ENOENT" },
            write := fun _ _ => Except.ok () }
          { statCacheKeys := [], enoentCache := ["/other"] } "/a").state.enoentCache.contains "/a" = true) ∧
    (({ statCacheKeys := [], enoentCache := ["/other"] } : ElectronFS.AdapterState).enoentCache.contains "/a" = true →
      (ElectronFS.readFile
        { read := fun _ => Except.error { message := "boom", code := some "ENOENT" },
          write := fun _ _ => Except.ok () }
        { statCacheKeys := [], enoentCache := ["/other"] } "/a").ipcCalled = false ∧
      (ElectronFS.readFile
        { read := fun _ => Except.error { message := "boom", code := some "ENOENT" },
          write := fun _ _ => Except.ok () }
        { statCacheKeys := [], enoentCache := ["/other"] } "/a").result = .error (ElectronFS.enoentError "/a")) ∧
    (({ statCacheKeys := [], enoentCache := ["/other"] } : ElectronFS.AdapterState).enoentCache.contains "/a" = false →
      (ElectronFS.readFile
        { read := fun _ => Except.error { message := "boom", code := some "ENOENT" },
          write := fun _ _ => Except.ok () }
        { statCacheKeys := [], enoentCache := ["/other"] } "/a").ipcCalled = true) ∧
    ((({ read := fun _ => Except.error { message := "boom", code := some "ENOENT" },
         write := fun _ _ => Except.ok () } : ElectronFS.FSOracle)).write "/a" "data" = .ok () →
      (ElectronFS.writeFile
        { read := fun _ => Except.error { message := "boom", code := some "ENOENT" },
          write := fun _ _ => Except.ok () }
        { statCacheKeys := [], enoentCache := ["/other"] } "/a" "data").2.enoentCache.contains "/a" = false ∧
      (ElectronFS.readFile
        { read := fun _ => Except.error { message := "boom", code := some "ENOENT" },
          write := fun _ _ => Except.ok () }
        (ElectronFS.writeFile
          { read := fun _ => Except.error { message := "boom", code := some "ENOENT" },
            write := fun _ _ => Except.ok () }
          { statCacheKeys := [], enoentCache := ["/other"] } "/a" "data").2 "/a").ipcCalled = true) :=
  electronfs_negative_cache
    { read := fun _ => Except.error { message := "boom", code := some "ENOENT" },
      write := fun _ _ => Except.ok () }
    { statCacheKeys := [], enoentCache := ["/other"] } "/a" "data" (by decide)

end ElectronFSTheorems

section SessionStoreTheorems

/-- Appending a binding for a key that is absent makes it findable. -/
theorem lookupSession_append_of_none (l : List (String × SessionModel.Session))
    (pid : String) (s : SessionModel.Session)
    (h : SessionModel.lookupSession l pid = none) :
    SessionModel.lookupSession (l ++ [(pid, s)]) pid = some s := by
  induction l with
  | nil => simp [SessionModel.lookupSession]
  | cons e rest ih =>
    simp only [List.cons_append, SessionModel.lookupSession] at h ⊢
    by_cases he : (e.1 == pid) = true
    · rw [if_pos he] at h
      exact absurd h (by simp)
    · rw [if_neg he] at h ⊢
      exact ih h

/-- C6: loadSession called twice for the same project returns the very
pair produced by the first call: the cached Session is returned again
with unchanged messages, and the tools arguments of the second call
are ignored. -/
theorem loadSession_identity_stable (storage : SessionModel.Storage)
    (st : SessionModel.ManagerState) (pid : String)
    (t c t' c' : List (String × SessionModel.SpecTool)) :
    SessionModel.loadSession storage
        (SessionModel.loadSession storage st pid t c).1 pid t' c' =
      SessionModel.loadSession storage st pid t c := by
  unfold SessionModel.loadSession
  cases h : SessionModel.lookupSession st.sessions pid with
  | some s => simp [h]
  | none =>
    dsimp only
    rw [lookupSession_append_of_none st.sessions pid _ h]

/-- C7: loading a session for a project with no cached session and no
persisted history yields a session carrying the project id, no
streaming draft and an empty message list. -/
theorem loadSession_fresh (storage : SessionModel.Storage)
    (st : SessionModel.ManagerState) (pid : String)
    (tools customTools : List (String × SessionModel.SpecTool))
    (hnone : SessionModel.getSession st pid = none)
    (hstore : storage pid = none) :
    (SessionModel.loadSession storage st pid tools customTools).2.projectId = pid ∧
    (SessionModel.loadSession storage st pid tools customTools).2.streamingMessage = none ∧
    (SessionModel.loadSession storage st pid tools customTools).2.messages = [] := by
  unfold SessionModel.getSession at hnone
  unfold SessionModel.loadSession
  rw [hnone]
  dsimp only
  rw [hstore]
  exact ⟨rfl, rfl, rfl⟩

/-- C7 witness: the fresh-load scenario at a concrete empty manager and
empty storage. -/
theorem loadSession_fresh_witness :
    (SessionModel.loadSession (fun _ => none)
        { providers := [], sessions := [] } "p1" [] []).2.projectId = "p1" ∧
    (SessionModel.loadSession (fun _ => none)
        { providers := [], sessions := [] } "p1" [] []).2.streamingMessage = none ∧
    (SessionModel.loadSession (fun _ => none)
        { providers := [], sessions := [] } "p1" [] []).2.messages = [] :=
  loadSession_fresh (fun _ => none) { providers := [], sessions := [] } "p1" [] []
    rfl rfl

/-- C1: when the provider prefix of the identifier matches no configured
provider, startGeneration rejects with the exact quoted message and
the manager state, and with it the session's messages, is exactly the
state before the call. -/
theorem startGeneration_provider_not_found (transport : SessionModel.Transport)
    (st : SessionModel.ManagerState) (pid pm : String) (s : SessionModel.Session)
    (hs : SessionModel.getSession st pid = some s)
    (hIdle : s.generationState = .Idle)
    (hprov : (SessionModel.splitProviderModel pm).1 ∉
      st.providers.map SessionModel.Provider.id) :
    SessionModel.startGeneration transport st pid pm =
      (Except.error ("Provider \"" ++ (SessionModel.splitProviderModel pm).1 ++ "\" not found"),
       st) := by
  have hfind : st.providers.find?
      (fun p => p.id == (SessionModel.splitProviderModel pm).1) = none := by
    rw [List.find?_eq_none]
    intro a ha
    simp only [beq_iff_eq]
    intro heq
    exact hprov (heq ▸ List.mem_map_of_mem SessionModel.Provider.id ha)
  have hres : SessionModel.resolveProvider st.providers pm =
      .error ("Provider \"" ++ (SessionModel.splitProviderModel pm).1 ++ "\" not found") := by
    unfold SessionModel.resolveProvider
    dsimp only
    rw [hfind]
  unfold SessionModel.startGeneration
  rw [hs]
  dsimp only
  rw [if_neg (by simp [hIdle])]
  rw [hres]

/-- C1 witness: the test-file scenario: a session for p1 holding one
user message, then startGeneration with the unconfigured provider
nope; the call rejects with the exact message and the state is
untouched. -/
theorem startGeneration_provider_not_found_witness :
    SessionModel.startGeneration (fun _ _ => SessionModel.TransportResult.failure "unused")
      (SessionModel.addMessage (fun _ => none)
        (SessionModel.loadSession (fun _ => none)
          { providers := [{ id := "test-provider", baseURL := "https://api.test.com",
                            apiKey := "test-key" }],
            sessions := [] } "p1" [] []).1
        "p1" { role := .user, content := "hi" })
      "p1" "nope/x" =
    (Except.error ("Provider \"" ++ (SessionModel.splitProviderModel "nope/x").1 ++ "\" not found"),
     SessionModel.addMessage (fun _ => none)
       (SessionModel.loadSession (fun _ => none)
         { providers := [{ id := "test-provider", baseURL := "https://api.test.com",
                           apiKey := "test-key" }],
           sessions := [] } "p1" [] []).1
       "p1" { role := .user, content := "hi" }) :=
  startGeneration_provider_not_found
    (fun _ _ => SessionModel.TransportResult.failure "unused")
    (SessionModel.addMessage (fun _ => none)
      (SessionModel.loadSession (fun _ => none)
        { providers := [{ id := "test-provider", baseURL := "https://api.test.com",
                          apiKey := "test-key" }],
          sessions := [] } "p1" [] []).1
      "p1" { role := .user, content := "hi" })
    "p1" "nope/x"
    { projectId := "p1", messages := [{ role := .user, content := "hi" }],
      streamingMessage := none, generationState := .Idle, tools := [], customTools := [] }
    rfl rfl (by decide)

end SessionStoreTheorems

section InvariantTheorems

open SessionModel

theorem sessionInv_requesting (s : Session) : sessionInv (requestingSession s) := by
  simp [sessionInv, requestingSession]

theorem sessionInv_failed (s : Session) : sessionInv (failedSession s) := by
  simp [sessionInv, failedSession]

theorem sessionInv_final (s : Session) (d : Message) : sessionInv (finalSession s d) := by
  simp [sessionInv, finalSession]

theorem sessionInv_exec (s : Session) (d : Message) : sessionInv (execSession s d) := by
  simp [sessionInv, execSession]

theorem sessionInv_afterTools (s : Session) (d : Message) :
    sessionInv (afterToolsSession s d) := by
  simp [sessionInv, afterToolsSession, execSession]

theorem sessionInv_streamingStates (s : Session) (ds : List StreamDelta)
    (s' : Session) (h : s' ∈ streamingStates s ds) : sessionInv s' := by
  simp only [streamingStates, List.mem_map] at h
  obtain ⟨i, _, rfl⟩ := h
  simp [sessionInv]

/-- Every intermediate session state recorded by the agent loop
satisfies the draft-presence invariant. -/
theorem runLoop_trace_inv (transport : Transport) (fuel : Nat) :
    ∀ iter s s', s' ∈ (runLoop transport iter fuel s).2.2 → sessionInv s' := by
  induction fuel with
  | zero =>
    intro iter s s' hmem
    simp only [runLoop, List.mem_singleton] at hmem
    exact hmem ▸ sessionInv_failed s
  | succ fuel' ih =>
    intro iter s s'
    simp only [runLoop]
    cases htr : transport iter (requestingSession s).messages with
    | failure msg =>
      intro hmem
      simp only [List.mem_cons, List.mem_singleton] at hmem
      rcases hmem with rfl | rfl | h
      · exact sessionInv_requesting s
      · exact sessionInv_failed _
      · cases h
    | stream ds =>
      dsimp only
      by_cases hno : ((accumulateDeltas ds).tool_calls.isEmpty = true)
      · rw [if_pos hno]
        intro hmem
        simp only [List.mem_cons, List.mem_append, List.mem_singleton,
          List.not_mem_nil, or_false, false_or, or_assoc] at hmem
        rcases hmem with rfl | h | rfl
        · exact sessionInv_requesting s
        · exact sessionInv_streamingStates _ ds s' h
        · exact sessionInv_final _ _
      · rw [if_neg hno]
        intro hmem
        simp only [List.mem_cons, List.mem_append, List.mem_singleton,
          List.not_mem_nil, or_false, false_or, or_assoc] at hmem
        rcases hmem with rfl | h | rfl | rfl | h
        · exact sessionInv_requesting s
        · exact sessionInv_streamingStates _ ds s' h
        · exact sessionInv_exec _ _
        · exact sessionInv_afterTools _ _
        · exact ih _ _ s' h

/-- The final session of the agent loop satisfies the invariant. -/
theorem runLoop_final_inv (transport : Transport) (fuel : Nat) :
    ∀ iter s, sessionInv (runLoop transport iter fuel s).2.1 := by
  induction fuel with
  | zero =>
    intro iter s
    simp only [runLoop]
    exact sessionInv_failed s
  | succ fuel' ih =>
    intro iter s
    simp only [runLoop]
    cases htr : transport iter (requestingSession s).messages with
    | failure msg => exact sessionInv_failed _
    | stream ds =>
      dsimp only
      by_cases hno : ((accumulateDeltas ds).tool_calls.isEmpty = true)
      · rw [if_pos hno]
        exact sessionInv_final _ _
      · rw [if_neg hno]
        exact ih _ _

/-- A session found by lookup is one of the stored entries. -/
theorem lookupSession_mem (l : List (String × Session)) (pid : String) (s : Session)
    (h : lookupSession l pid = some s) : ∃ k, (k, s) ∈ l := by
  induction l with
  | nil => simp [lookupSession] at h
  | cons e rest ih =>
    simp only [lookupSession] at h
    by_cases he : (e.1 == pid) = true
    · rw [if_pos he] at h
      exact ⟨e.1, by simp [← Option.some_inj.mp h]⟩
    · rw [if_neg he] at h
      obtain ⟨k, hk⟩ := ih h
      exact ⟨k, List.mem_cons_of_mem e hk⟩

/-- Replacing one session with an invariant-satisfying one preserves
the manager invariant. -/
theorem managerInv_update (st : ManagerState) (pid : String) (s : Session)
    (hinv : managerInv st) (hs : sessionInv s) :
    managerInv (updateSession st pid s) := by
  intro e he
  simp only [updateSession, List.mem_map] at he
  obtain ⟨a, ha, rfl⟩ := he
  by_cases hk : (a.1 == pid) = true
  · rw [if_pos hk]
    exact hs
  · rw [if_neg hk]
    exact hinv a ha

/-- loadSession preserves the manager invariant and returns an
invariant-satisfying session. -/
theorem managerInv_load (storage : Storage) (st : ManagerState) (pid : String)
    (tools customTools : List (String × SpecTool)) (hinv : managerInv st) :
    managerInv (loadSession storage st pid tools customTools).1 ∧
    sessionInv (loadSession storage st pid tools customTools).2 := by
  unfold loadSession
  cases h : lookupSession st.sessions pid with
  | some s =>
    obtain ⟨k, hk⟩ := lookupSession_mem st.sessions pid s h
    exact ⟨hinv, hinv (k, s) hk⟩
  | none =>
    constructor
    · intro e he
      simp only [List.mem_append, List.mem_singleton] at he
      rcases he with he | rfl
      · exact hinv e he
      · simp [sessionInv]
    · simp [sessionInv]

/-- Changing only the message list of a session does not disturb the
invariant. -/
theorem sessionInv_set_messages (s : Session) (l : List Message) (h : sessionInv s) :
    sessionInv { s with messages := l } := by
  simpa [sessionInv] using h

/-- C2: the draft-presence invariant (streamingMessage is present iff
the generation state is Streaming or ExecutingTools) holds at every
intermediate state of the agent loop and is preserved by loadSession,
addMessage, cancelGeneration and startGeneration; moreover at most
one generation is active per session: startGeneration on a non-Idle
session fails fast with GenerationInProgress and changes nothing. -/
theorem session_invariant (storage : Storage) (transport : Transport)
    (st : ManagerState) (pid pm : String) (m : Message)
    (tools customTools : List (String × SpecTool)) (iter fuel : Nat)
    (s s' : Session) (hinv : managerInv st) :
    (s' ∈ (runLoop transport iter fuel s).2.2 → sessionInv s') ∧
    managerInv (loadSession storage st pid tools customTools).1 ∧
    sessionInv (loadSession storage st pid tools customTools).2 ∧
    managerInv (addMessage storage st pid m) ∧
    managerInv (cancelGeneration st pid) ∧
    managerInv (startGeneration transport st pid pm).2 ∧
    (getSession st pid = some s → s.generationState ≠ .Idle →
      startGeneration transport st pid pm = (.error "GenerationInProgress", st)) := by
  obtain ⟨hload1, hload2⟩ := managerInv_load storage st pid tools customTools hinv
  refine ⟨fun h => runLoop_trace_inv transport fuel iter s s' h, hload1, hload2,
    ?_, ?_, ?_, ?_⟩
  · unfold addMessage
    obtain ⟨h1, h2⟩ := managerInv_load storage st pid [] [] hinv
    exact managerInv_update _ pid _ h1 (sessionInv_set_messages _ _ h2)
  · unfold cancelGeneration
    cases h : getSession st pid with
    | none => exact hinv
    | some t =>
      exact managerInv_update st pid _ hinv (by simp [sessionInv])
  · unfold startGeneration
    cases h : getSession st pid with
    | none => exact hinv
    | some t =>
      dsimp only
      by_cases ht : (t.generationState != GenerationState.Idle) = true
      · rw [if_pos ht]
        exact hinv
      · rw [if_neg ht]
        cases hr : resolveProvider st.providers pm with
        | error e => exact hinv
        | ok pr =>
          dsimp only
          have hfin := runLoop_final_inv transport maxIterations 0 t
          cases hout : (runLoop transport 0 maxIterations t).1 with
          | completed mm => exact managerInv_update st pid _ hinv hfin
          | transportFailed msg => exact managerInv_update st pid _ hinv hfin
          | maxIterationsExceeded => exact managerInv_update st pid _ hinv hfin
  · intro hs hne
    unfold startGeneration
    rw [hs]
    dsimp only
    rw [if_pos (by simpa using hne)]

/-- C2 witness: the invariant bundle instantiated at an empty manager,
a trivial transport and a concrete Idle session. -/
theorem session_invariant_witness :
    (({ projectId := "w", messages := [], streamingMessage := none,
        generationState := .Idle, tools := [], customTools := [] } : Session) ∈
        (runLoop (fun _ _ => TransportResult.failure "f") 0 1
          { projectId := "p", messages := [], streamingMessage := none,
            generationState := .Idle, tools := [], customTools := [] }).2.2 →
      sessionInv
        { projectId := "w", messages := [], streamingMessage := none,
          generationState := .Idle, tools := [], customTools := [] }) ∧
    managerInv (loadSession (fun _ => none) { providers := [], sessions := [] }
      "p1" [] []).1 ∧
    sessionInv (loadSession (fun _ => none) { providers := [], sessions := [] }
      "p1" [] []).2 ∧
    managerInv (addMessage (fun _ => none) { providers := [], sessions := [] }
      "p1" { role := .user, content := "hi" }) ∧
    managerInv (cancelGeneration { providers := [], sessions := [] } "p1") ∧
    managerInv (startGeneration (fun _ _ => TransportResult.failure "f")
      { providers := [], sessions := [] } "p1" "a/b").2 ∧
    (getSession { providers := [], sessions := [] } "p1" = some
        { projectId := "p", messages := [], streamingMessage := none,
          generationState := .Idle, tools := [], customTools := [] } →
      ({ projectId := "p", messages := [], streamingMessage := none,
         generationState := .Idle, tools := [],
         customTools := [] } : Session).generationState ≠ .Idle →
      startGeneration (fun _ _ => TransportResult.failure "f")
          { providers := [], sessions := [] } "p1" "a/b" =
        (.error "GenerationInProgress", { providers := [], sessions := [] })) :=
  session_invariant (fun _ => none) (fun _ _ => TransportResult.failure "f")
    { providers := [], sessions := [] } "p1" "a/b"
    { role := .user, content := "hi" } [] [] 0 1
    { projectId := "p", messages := [], streamingMessage := none,
      generationState := .Idle, tools := [], customTools := [] }
    { projectId := "w", messages := [], streamingMessage := none,
      generationState := .Idle, tools := [], customTools := [] }
    (by intro e he; cases he)

end InvariantTheorems

section StreamingTheorems

open SessionModel

theorem applyDelta_content (m : Message) (d : StreamDelta) :
    (applyDelta m d).content = m.content ++ d.contentDelta.getD "" := rfl

theorem applyDelta_reasoning (m : Message) (d : StreamDelta) :
    ∃ e, (applyDelta m d).reasoning_content.getD "" =
      m.reasoning_content.getD "" ++ e := by
  cases hm : m.reasoning_content with
  | some r =>
    cases hd : d.reasoningDelta with
    | some dr => exact ⟨dr, by simp [applyDelta, hm, hd]⟩
    | none => exact ⟨"", by simp [applyDelta, hm, hd]⟩
  | none =>
    cases hd : d.reasoningDelta with
    | some dr =>
      refine ⟨dr, ?_⟩
      by_cases h : (dr == "") = true
      · have hdr : dr = "" := by simpa using h
        subst hdr
        simp [applyDelta, hm, hd]
      · simp [applyDelta, hm, hd, h]
    | none => exact ⟨"", by simp [applyDelta, hm, hd]⟩

theorem accumulate_take_succ (ds : List StreamDelta) (i : Nat) :
    accumulateDeltas (ds.take (i + 1)) =
      (ds[i]?).toList.foldl applyDelta (accumulateDeltas (ds.take i)) := by
  unfold accumulateDeltas
  rw [List.take_succ, List.foldl_append]

/-- Each streaming snapshot extends the previous snapshot's content. -/
theorem accumulate_content_mono (ds : List StreamDelta) (i : Nat) :
    ∃ e, (accumulateDeltas (ds.take (i + 1))).content =
      (accumulateDeltas (ds.take i)).content ++ e := by
  rw [accumulate_take_succ]
  cases h : ds[i]? with
  | none => exact ⟨"", by simp⟩
  | some d => exact ⟨d.contentDelta.getD "", by simp [applyDelta_content]⟩

/-- Each streaming snapshot extends the previous snapshot's reasoning
content. -/
theorem accumulate_reasoning_mono (ds : List StreamDelta) (i : Nat) :
    ∃ e, (accumulateDeltas (ds.take (i + 1))).reasoning_content.getD "" =
      (accumulateDeltas (ds.take i)).reasoning_content.getD "" ++ e := by
  rw [accumulate_take_succ]
  cases h : ds[i]? with
  | none => exact ⟨"", by simp⟩
  | some d =>
    obtain ⟨e, he⟩ := applyDelta_reasoning (accumulateDeltas (ds.take i)) d
    exact ⟨e, by simpa using he⟩

/-- The last streaming snapshot of a non-empty delta sequence carries
the full accumulated draft. -/
theorem streamingStates_getLast (s : Session) (ds : List StreamDelta)
    (hne : ds ≠ []) :
    (streamingStates s ds).getLast? =
      some { s with generationState := .Streaming,
                    streamingMessage := some (accumulateDeltas ds) } := by
  obtain ⟨n, hn⟩ : ∃ n, ds.length = n + 1 := by
    cases ds with
    | nil => exact absurd rfl hne
    | cons a t => exact ⟨t.length, rfl⟩
  unfold streamingStates
  rw [hn, List.range_succ, List.map_append]
  rw [List.map_singleton, List.getLast?_concat]
  rw [← hn, List.take_length]

/-- C3: during a successful generation the streamed snapshots are
monotonically non-decreasing under concatenation in both content and
reasoning content; the loop finalizes by appending the accumulated
draft, the final session has no streamingMessage, its last appended
message equals the accumulated draft, and the last streamed snapshot
carries exactly that draft. -/
theorem streaming_monotone_finalize (transport : Transport) (iter fuel : Nat)
    (s : Session) (ds : List StreamDelta) (i : Nat)
    (htr : transport iter s.messages = .stream ds)
    (hno : (accumulateDeltas ds).tool_calls.isEmpty = true) :
    (∃ e, (accumulateDeltas (ds.take (i + 1))).content =
        (accumulateDeltas (ds.take i)).content ++ e) ∧
    (∃ e, (accumulateDeltas (ds.take (i + 1))).reasoning_content.getD "" =
        (accumulateDeltas (ds.take i)).reasoning_content.getD "" ++ e) ∧
    runLoop transport iter (fuel + 1) s =
      (.completed (accumulateDeltas ds),
       finalSession (requestingSession s) (accumulateDeltas ds),
       requestingSession s :: streamingStates (requestingSession s) ds ++
         [finalSession (requestingSession s) (accumulateDeltas ds)]) ∧
    (finalSession (requestingSession s) (accumulateDeltas ds)).streamingMessage = none ∧
    (finalSession (requestingSession s) (accumulateDeltas ds)).messages.getLast? =
      some (accumulateDeltas ds) ∧
    (ds ≠ [] →
      (streamingStates (requestingSession s) ds).getLast? =
        some { requestingSession s with
               generationState := .Streaming,
               streamingMessage := some (accumulateDeltas ds) }) := by
  have htr' : transport iter (requestingSession s).messages = .stream ds := htr
  refine ⟨accumulate_content_mono ds i, accumulate_reasoning_mono ds i, ?_, rfl, ?_, ?_⟩
  · simp only [runLoop]
    rw [htr']
    dsimp only
    rw [if_pos hno]
  · show ((requestingSession s).messages ++ [accumulateDeltas ds]).getLast? = _
    exact List.getLast?_concat _
  · exact streamingStates_getLast (requestingSession s) ds

/-- C3 witness: a two-delta stream with content and reasoning, run to
completion at a concrete session. -/
theorem streaming_monotone_finalize_witness :
    (∃ e, (accumulateDeltas
        (([{ contentDelta := some "ab", reasoningDelta := some "r" },
           { contentDelta := some "c", reasoningDelta := some "s" }] :
            List StreamDelta).take (0 + 1))).content =
      (accumulateDeltas
        (([{ contentDelta := some "ab", reasoningDelta := some "r" },
           { contentDelta := some "c", reasoningDelta := some "s" }] :
            List StreamDelta).take 0)).content ++ e) ∧
    (∃ e, (accumulateDeltas
        (([{ contentDelta := some "ab", reasoningDelta := some "r" },
           { contentDelta := some "c", reasoningDelta := some "s" }] :
            List StreamDelta).take (0 + 1))).reasoning_content.getD "" =
      (accumulateDeltas
        (([{ contentDelta := some "ab", reasoningDelta := some "r" },
           { contentDelta := some "c", reasoningDelta := some "s" }] :
            List StreamDelta).take 0)).reasoning_content.getD "" ++ e) ∧
    runLoop
      (fun _ _ => TransportResult.stream
        [{ contentDelta := some "ab", reasoningDelta := some "r" },
         { contentDelta := some "c", reasoningDelta := some "s" }])
      0 (0 + 1)
      { projectId := "p", messages := [], streamingMessage := none,
        generationState := .Idle, tools := [], customTools := [] } =
      (.completed (accumulateDeltas
        [{ contentDelta := some "ab", reasoningDelta := some "r" },
         { contentDelta := some "c", reasoningDelta := some "s" }]),
       finalSession
        (requestingSession
          { projectId := "p", messages := [], streamingMessage := none,
            generationState := .Idle, tools := [], customTools := [] })
        (accumulateDeltas
          [{ contentDelta := some "ab", reasoningDelta := some "r" },
           { contentDelta := some "c", reasoningDelta := some "s" }]),
       requestingSession
          { projectId := "p", messages := [], streamingMessage := none,
            generationState := .Idle, tools := [], customTools := [] } ::
         streamingStates
          (requestingSession
            { projectId := "p", messages := [], streamingMessage := none,
              generationState := .Idle, tools := [], customTools := [] })
          [{ contentDelta := some "ab", reasoningDelta := some "r" },
           { contentDelta := some "c", reasoningDelta := some "s" }] ++
         [finalSession
           (requestingSession
             { projectId := "p", messages := [], streamingMessage := none,
               generationState := .Idle, tools := [], customTools := [] })
           (accumulateDeltas
             [{ contentDelta := some "ab", reasoningDelta := some "r" },
              { contentDelta := some "c", reasoningDelta := some "s" }])]) ∧
    (finalSession
      (requestingSession
        { projectId := "p", messages := [], streamingMessage := none,
          generationState := .Idle, tools := [], customTools := [] })
      (accumulateDeltas
        [{ contentDelta := some "ab", reasoningDelta := some "r" },
         { contentDelta := some "c", reasoningDelta := some "s" }])).streamingMessage
      = none ∧
    (finalSession
      (requestingSession
        { projectId := "p", messages := [], streamingMessage := none,
          generationState := .Idle, tools := [], customTools := [] })
      (accumulateDeltas
        [{ contentDelta := some "ab", reasoningDelta := some "r" },
         { contentDelta := some "c", reasoningDelta := some "s" }])).messages.getLast?
      = some (accumulateDeltas
        [{ contentDelta := some "ab", reasoningDelta := some "r" },
         { contentDelta := some "c", reasoningDelta := some "s" }]) ∧
    (([{ contentDelta := some "ab", reasoningDelta := some "r" },
       { contentDelta := some "c", reasoningDelta := some "s" }] :
        List StreamDelta) ≠ [] →
      (streamingStates
        (requestingSession
          { projectId := "p", messages := [], streamingMessage := none,
            generationState := .Idle, tools := [], customTools := [] })
        [{ contentDelta := some "ab", reasoningDelta := some "r" },
         { contentDelta := some "c", reasoningDelta := some "s" }]).getLast? =
        some { requestingSession
                 { projectId := "p", messages := [], streamingMessage := none,
                   generationState := .Idle, tools := [], customTools := [] } with
               generationState := .Streaming,
               streamingMessage := some (accumulateDeltas
                 [{ contentDelta := some "ab", reasoningDelta := some "r" },
                  { contentDelta := some "c", reasoningDelta := some "s" }]) }) :=
  streaming_monotone_finalize
    (fun _ _ => TransportResult.stream
      [{ contentDelta := some "ab", reasoningDelta := some "r" },
       { contentDelta := some "c", reasoningDelta := some "s" }])
    0 0
    { projectId := "p", messages := [], streamingMessage := none,
      generationState := .Idle, tools := [], customTools := [] }
    [{ contentDelta := some "ab", reasoningDelta := some "r" },
     { contentDelta := some "c", reasoningDelta := some "s" }]
    0 rfl rfl

end StreamingTheorems

section ToolRoundTripTheorems

open SessionModel

theorem runToolCall_role (s : Session) (tc : ToolCall) :
    (runToolCall s tc).role = .tool := rfl

theorem runToolCall_id (s : Session) (tc : ToolCall) :
    (runToolCall s tc).tool_call_id = some tc.id := rfl

theorem toolMessages_ids (s : Session) (tcs : List ToolCall) :
    (toolMessages s tcs).map Message.tool_call_id =
      tcs.map (fun tc => some tc.id) := by
  unfold toolMessages
  rw [List.map_map]
  rfl

theorem toolMessages_roles (s : Session) (tcs : List ToolCall) :
    ∀ m ∈ toolMessages s tcs, m.role = .tool := by
  intro m hm
  simp only [toolMessages, List.mem_map] at hm
  obtain ⟨tc, _, rfl⟩ := hm
  rfl

/-- C4: when a stream yields a draft with tool calls, the loop appends
exactly one tool-role message per ToolCall, in call order, each
carrying the matching tool_call_id, and all of them sit in the message
list handed to the next iteration, so they precede the next provider
request. -/
theorem tool_round_trip (transport : Transport) (iter fuel : Nat) (s : Session)
    (ds : List StreamDelta)
    (htr : transport iter s.messages = .stream ds)
    (htools : (accumulateDeltas ds).tool_calls.isEmpty = false) :
    (toolMessages (requestingSession s) (accumulateDeltas ds).tool_calls).length =
      (accumulateDeltas ds).tool_calls.length ∧
    (toolMessages (requestingSession s) (accumulateDeltas ds).tool_calls).map
        Message.tool_call_id =
      (accumulateDeltas ds).tool_calls.map (fun tc => some tc.id) ∧
    (∀ m ∈ toolMessages (requestingSession s) (accumulateDeltas ds).tool_calls,
      m.role = .tool) ∧
    (afterToolsSession (requestingSession s) (accumulateDeltas ds)).messages =
      s.messages ++ [accumulateDeltas ds] ++
        toolMessages (requestingSession s) (accumulateDeltas ds).tool_calls ∧
    runLoop transport iter (fuel + 1) s =
      ((runLoop transport (iter + 1) fuel
          (afterToolsSession (requestingSession s) (accumulateDeltas ds))).1,
       (runLoop transport (iter + 1) fuel
          (afterToolsSession (requestingSession s) (accumulateDeltas ds))).2.1,
       requestingSession s :: streamingStates (requestingSession s) ds ++
         [execSession (requestingSession s) (accumulateDeltas ds),
          afterToolsSession (requestingSession s) (accumulateDeltas ds)] ++
         (runLoop transport (iter + 1) fuel
            (afterToolsSession (requestingSession s) (accumulateDeltas ds))).2.2) := by
  have htr' : transport iter (requestingSession s).messages = .stream ds := htr
  refine ⟨by simp [toolMessages], toolMessages_ids _ _, toolMessages_roles _ _, ?_, ?_⟩
  · simp [afterToolsSession, execSession, requestingSession]
  · simp only [runLoop]
    rw [htr']
    dsimp only
    rw [if_neg (by simp [htools])]

/-- C4 witness: an assistant turn with two tool calls at a concrete
session and transport. -/
theorem tool_round_trip_witness :
    (toolMessages (requestingSession (Fixtures.emptySession "p"))
        (accumulateDeltas Fixtures.twoToolDeltas).tool_calls).length =
      (accumulateDeltas Fixtures.twoToolDeltas).tool_calls.length ∧
    (toolMessages (requestingSession (Fixtures.emptySession "p"))
        (accumulateDeltas Fixtures.twoToolDeltas).tool_calls).map
        Message.tool_call_id =
      (accumulateDeltas Fixtures.twoToolDeltas).tool_calls.map (fun tc => some tc.id) ∧
    (∀ m ∈ toolMessages (requestingSession (Fixtures.emptySession "p"))
        (accumulateDeltas Fixtures.twoToolDeltas).tool_calls,
      m.role = .tool) ∧
    (afterToolsSession (requestingSession (Fixtures.emptySession "p"))
        (accumulateDeltas Fixtures.twoToolDeltas)).messages =
      (Fixtures.emptySession "p").messages ++ [accumulateDeltas Fixtures.twoToolDeltas] ++
        toolMessages (requestingSession (Fixtures.emptySession "p"))
          (accumulateDeltas Fixtures.twoToolDeltas).tool_calls ∧
    runLoop Fixtures.toolTransport 0 (0 + 1) (Fixtures.emptySession "p") =
      ((runLoop Fixtures.toolTransport (0 + 1) 0
          (afterToolsSession (requestingSession (Fixtures.emptySession "p"))
            (accumulateDeltas Fixtures.twoToolDeltas))).1,
       (runLoop Fixtures.toolTransport (0 + 1) 0
          (afterToolsSession (requestingSession (Fixtures.emptySession "p"))
            (accumulateDeltas Fixtures.twoToolDeltas))).2.1,
       requestingSession (Fixtures.emptySession "p") ::
         streamingStates (requestingSession (Fixtures.emptySession "p"))
           Fixtures.twoToolDeltas ++
         [execSession (requestingSession (Fixtures.emptySession "p"))
            (accumulateDeltas Fixtures.twoToolDeltas),
          afterToolsSession (requestingSession (Fixtures.emptySession "p"))
            (accumulateDeltas Fixtures.twoToolDeltas)] ++
         (runLoop Fixtures.toolTransport (0 + 1) 0
            (afterToolsSession (requestingSession (Fixtures.emptySession "p"))
              (accumulateDeltas Fixtures.twoToolDeltas))).2.2) :=
  tool_round_trip Fixtures.toolTransport 0 0 (Fixtures.emptySession "p")
    Fixtures.twoToolDeltas rfl rfl

end ToolRoundTripTheorems

section IterationCapTheorems

open SessionModel

/-- The agent loop only ever appends to the conversation: the starting
messages are a prefix of the final session's messages. -/
theorem runLoop_messages_extend (transport : Transport) (fuel : Nat) :
    ∀ iter s, ∃ tail,
      (runLoop transport iter fuel s).2.1.messages = s.messages ++ tail := by
  induction fuel with
  | zero =>
    intro iter s
    exact ⟨[], by simp [runLoop, failedSession]⟩
  | succ fuel' ih =>
    intro iter s
    simp only [runLoop]
    cases htr : transport iter (requestingSession s).messages with
    | failure msg =>
      exact ⟨[], by simp [failedSession, requestingSession]⟩
    | stream ds =>
      dsimp only
      by_cases hno : ((accumulateDeltas ds).tool_calls.isEmpty = true)
      · rw [if_pos hno]
        exact ⟨[accumulateDeltas ds], by simp [finalSession, requestingSession]⟩
      · rw [if_neg hno]
        obtain ⟨t, ht⟩ :=
          ih (iter + 1) (afterToolsSession (requestingSession s) (accumulateDeltas ds))
        refine ⟨[accumulateDeltas ds] ++
          toolMessages (requestingSession s) (accumulateDeltas ds).tool_calls ++ t, ?_⟩
        rw [ht]
        simp [afterToolsSession, execSession, requestingSession]

theorem assistantCount_append (l1 l2 : List Message) :
    assistantCount (l1 ++ l2) = assistantCount l1 + assistantCount l2 := by
  simp [assistantCount, List.filter_append]

theorem assistantCount_toolMessages (s : Session) (tcs : List ToolCall) :
    assistantCount (toolMessages s tcs) = 0 := by
  induction tcs with
  | nil => rfl
  | cons tc t ih =>
    simp only [toolMessages, List.map_cons, assistantCount, List.filter_cons] at ih ⊢
    rw [if_neg (by simp [runToolCall_role])]
    exact ih

theorem assistantCount_singleton (m : Message) : assistantCount [m] ≤ 1 := by
  simp only [assistantCount, List.filter]
  split <;> simp

/-- Each loop iteration records at most one assistant turn, so the
assistant-message count grows by at most the fuel: the number of
request round-trips is bounded by the iteration cap. -/
theorem runLoop_assistant_bound (transport : Transport) (fuel : Nat) :
    ∀ iter s,
      assistantCount (runLoop transport iter fuel s).2.1.messages ≤
        assistantCount s.messages + fuel := by
  induction fuel with
  | zero =>
    intro iter s
    simp [runLoop, failedSession]
  | succ fuel' ih =>
    intro iter s
    simp only [runLoop]
    cases htr : transport iter (requestingSession s).messages with
    | failure msg =>
      dsimp only
      simp only [failedSession, requestingSession]
      omega
    | stream ds =>
      dsimp only
      by_cases hno : ((accumulateDeltas ds).tool_calls.isEmpty = true)
      · rw [if_pos hno]
        have h1 := assistantCount_singleton (accumulateDeltas ds)
        simp only [finalSession, requestingSession, assistantCount_append]
        omega
      · rw [if_neg hno]
        dsimp only
        have h1 := ih (iter + 1) (afterToolsSession (requestingSession s) (accumulateDeltas ds))
        have h2 : assistantCount (afterToolsSession (requestingSession s)
            (accumulateDeltas ds)).messages ≤ assistantCount s.messages + 1 := by
          have h3 := assistantCount_singleton (accumulateDeltas ds)
          have h4 := assistantCount_toolMessages (requestingSession s)
            (accumulateDeltas ds).tool_calls
          simp only [afterToolsSession, execSession, requestingSession,
            assistantCount_append] at h4 ⊢
          omega
        omega

/-- C5: the agent loop is a bounded iteration: when the cap is
exhausted, startGeneration rejects with MaxIterationsExceeded (a
returned rejection, not an unhandled exception), the session is
updated rather than lost, the messages accumulated so far extend the
original conversation, and at most maxIterations assistant turns were
added. -/
theorem iteration_cap (transport : Transport) (st : ManagerState)
    (pid pm : String) (s : Session) (pr : Provider × String)
    (hs : getSession st pid = some s)
    (hIdle : s.generationState = .Idle)
    (hres : resolveProvider st.providers pm = .ok pr)
    (hcap : (runLoop transport 0 maxIterations s).1 = .maxIterationsExceeded) :
    startGeneration transport st pid pm =
      (.error "MaxIterationsExceeded",
       updateSession st pid (runLoop transport 0 maxIterations s).2.1) ∧
    (∃ tail, (runLoop transport 0 maxIterations s).2.1.messages =
      s.messages ++ tail) ∧
    assistantCount (runLoop transport 0 maxIterations s).2.1.messages ≤
      assistantCount s.messages + maxIterations := by
  refine ⟨?_, runLoop_messages_extend transport maxIterations 0 s,
    runLoop_assistant_bound transport maxIterations 0 s⟩
  unfold startGeneration
  rw [hs]
  dsimp only
  rw [if_neg (by simp [hIdle])]
  rw [hres]
  dsimp only
  rw [hcap]

/-- C5 witness: a transport that always answers with tool calls drives
the loop into the iteration cap at a concrete session. -/
theorem iteration_cap_witness :
    startGeneration Fixtures.toolTransport
      { providers := Fixtures.testProviders,
        sessions := [("p1", Fixtures.emptySession "p1")] } "p1" "test-provider/m" =
      (.error "MaxIterationsExceeded",
       updateSession
         { providers := Fixtures.testProviders,
           sessions := [("p1", Fixtures.emptySession "p1")] } "p1"
         (runLoop Fixtures.toolTransport 0 maxIterations
           (Fixtures.emptySession "p1")).2.1) ∧
    (∃ tail, (runLoop Fixtures.toolTransport 0 maxIterations
        (Fixtures.emptySession "p1")).2.1.messages =
      (Fixtures.emptySession "p1").messages ++ tail) ∧
    assistantCount (runLoop Fixtures.toolTransport 0 maxIterations
        (Fixtures.emptySession "p1")).2.1.messages ≤
      assistantCount (Fixtures.emptySession "p1").messages + maxIterations :=
  iteration_cap Fixtures.toolTransport
    { providers := Fixtures.testProviders,
      sessions := [("p1", Fixtures.emptySession "p1")] } "p1" "test-provider/m"
    (Fixtures.emptySession "p1")
    ({ id := "test-provider", baseURL := "https://api.test.com", apiKey := "test-key" }, "m")
    rfl rfl rfl (by decide)

end IterationCapTheorems
